import Mathlib

/-!
Shallow embedding of the vjloans `dashboard` application core
(`src/dashboard/models.py`, `src/dashboard/forms.py`, `src/dashboard/views.py`).

Conventions of the embedding:
* Money amounts (Python `Decimal`/`float`) are modelled as exact rationals `ℚ`.
  The concrete values appearing in the claims are far from any binary-float or
  half-way rounding boundary, so the rational model agrees with the Python
  float computation after rounding to 2 decimal places.
* `round(x, 2)` is modelled by `round2` below (round half away handled by
  Mathlib's `round`, i.e. half-up; no half-way case occurs at the values in
  any claim).
* Dates and datetimes are modelled as integers (days); `timedelta(days=d)`
  is addition of `d`.
* Python truthiness of a nullable decimal field (`if self.monthly_installment:`)
  is `truthy`: `none` and `some 0` are falsy, any other value truthy.
* Django rows owned by an application (`payments`) are a `List` carried in the
  application record; creation order is list order and `.save()` of a fresh
  row appends.  Aggregate `Sum` is `List.sum`; `filter(...).order_by
  ('due_date').first()` is `nextOutstanding` (the earliest-due matching
  element, first position winning ties, exactly as a stable sort gives).
* The foreign key `loan_type` is always present on an application (non-null
  FK); only its `interest_rate` matters to the modelled code, so it is
  inlined as a field `interest_rate`.
-/

namespace VJLoans

/-- Python `round(x, 2)`: round to 2 decimal places. -/
def round2 (x : ℚ) : ℚ := (round (x * 100) : ℤ) / 100

/-- Choices of `LoanApplication.APPLICATION_STATUS`. -/
inductive AppStatus
  | pending
  | approved
  | rejected
  | under_review
  | more_info
deriving Repr, DecidableEq

/-- Choices of `LoanPayment.PAYMENT_STATUS`. -/
inductive PayStatus
  | pending
  | processing
  | completed
  | failed
  | overdue
deriving Repr, DecidableEq

/-- Choices of `LoanWithdrawal.WITHDRAWAL_STATUS`. -/
inductive WithdrawalStatus
  | pending
  | processing
  | completed
  | failed
deriving Repr, DecidableEq

/-- One `LoanPayment` row (the fields the modelled code reads or writes). -/
structure LoanPayment where
  amount : ℚ
  due_date : ℤ
  status : PayStatus
  installment_number : ℕ
  transaction_id : String
  payment_date : Option ℤ
deriving Repr, DecidableEq

/-- One `LoanWithdrawal` row (the fields the modelled code reads or writes). -/
structure LoanWithdrawal where
  mpesa_number : String
  amount : ℚ
  status : WithdrawalStatus
  transaction_id : String
  processed_date : Option ℤ
deriving Repr, DecidableEq

/-- A `LoanApplication` row together with its owned `payments` collection. -/
structure LoanApplication where
  amount : ℚ
  term_months : ℕ
  interest_rate : ℚ
  status : AppStatus
  monthly_installment : Option ℚ
  total_repayment : Option ℚ
  payments : List LoanPayment
deriving Repr, DecidableEq

/-- Python truthiness of a nullable numeric field: `None` and `0` are falsy. -/
def truthy : Option ℚ → Bool
  | none => false
  | some x => x != 0

/-- A freshly constructed application: Django field defaults
`status='pending'`, `monthly_installment=None`, `total_repayment=None`,
no payment rows yet. -/
def mkApplication (amount : ℚ) (term_months : ℕ) (interest_rate : ℚ) :
    LoanApplication :=
  { amount := amount
    term_months := term_months
    interest_rate := interest_rate
    status := .pending
    monthly_installment := none
    total_repayment := none
    payments := [] }

/-- Model of `LoanApplication.calculate_repayment` (models.py lines 94-108).
Sets `monthly_installment = round(mi, 2)` and
`total_repayment = round(mi * term, 2)` where `mi` is the *unrounded*
installment from the amortization formula (the Python local variable
`monthly_installment`). -/
def calculate_repayment (app : LoanApplication) : LoanApplication :=
  if app.amount ≠ 0 ∧ app.term_months ≠ 0 then
    let monthly_rate : ℚ := app.interest_rate / 100 / 12
    let principal : ℚ := app.amount
    let term : ℕ := app.term_months
    let monthly_installment : ℚ :=
      if monthly_rate > 0 then
        (principal * monthly_rate * (1 + monthly_rate) ^ term) /
          ((1 + monthly_rate) ^ term - 1)
      else
        principal / (term : ℚ)
    { app with
      monthly_installment := some (round2 monthly_installment)
      total_repayment := some (round2 (monthly_installment * (term : ℚ))) }
  else
    app

/-- Model of `LoanApplication.create_payment_schedule` (models.py lines 110-124):
delete every existing payment row, then create `term_months` fresh rows,
row `i` (0-based) due `30 * (i + 1)` days from `today`, amount
`self.monthly_installment`, status `'pending'`, installment numbers 1..n.
(Python would fail on a `None` installment; `getD 0` stands for that value
only in states the claims never reach.) -/
def create_payment_schedule (today : ℤ) (app : LoanApplication) :
    LoanApplication :=
  { app with
    payments := (List.range app.term_months).map fun (i : ℕ) =>
      { amount := app.monthly_installment.getD 0
        due_date := today + 30 * ((i : ℤ) + 1)
        status := .pending
        installment_number := i + 1
        transaction_id := ""
        payment_date := none } }

/-- Model of `LoanApplication.save` (models.py lines 86-92): compute repayment figures
only when approved and the installment field is still falsy, then (after the
DB write) regenerate the payment schedule on *every* save while approved. -/
def save (today : ℤ) (app : LoanApplication) : LoanApplication :=
  let app' :=
    if app.status = .approved ∧ ¬ truthy app.monthly_installment then
      calculate_repayment app
    else
      app
  if app'.status = .approved then
    create_payment_schedule today app'
  else
    app'

/-- Sum of the amounts of completed payments in a list of payment rows. -/
def total_paid_list (ps : List LoanPayment) : ℚ :=
  ((ps.filter fun p => p.status == .completed).map (·.amount)).sum

/-- Model of `LoanApplication.total_paid` (models.py lines 126-132): aggregate sum of
`amount` over the application's payments with status `'completed'`
(`None` for the empty aggregate becomes `0` via `result or 0`). -/
def total_paid (app : LoanApplication) : ℚ :=
  total_paid_list app.payments

/-- Model of `LoanApplication.remaining_balance` (models.py lines 134-139):
`total_repayment - total_paid` when `total_repayment` is truthy, else `0`.
No clamping to zero. -/
def remaining_balance (app : LoanApplication) : ℚ :=
  if truthy app.total_repayment then
    app.total_repayment.getD 0 - total_paid app
  else
    0

/-- A payment row with status `'pending'` or `'overdue'` (the filter used by
`next_payment_due` in models.py and by `make_payment` in views.py). -/
def isOutstanding (p : LoanPayment) : Bool :=
  p.status == .pending || p.status == .overdue

/-- Model of `payments.filter(status__in=['pending','overdue']).order_by('due_date')
.first()`, together with the list position of the returned row: the
outstanding row of minimal `due_date`, the earliest list position winning
ties (as a stable sort gives). -/
def nextOutstanding : List LoanPayment → Option (ℕ × LoanPayment)
  | [] => none
  | p :: ps =>
    match nextOutstanding ps with
    | none => if isOutstanding p then some (0, p) else none
    | some (j, q) =>
      if isOutstanding p then
        if q.due_date < p.due_date then some (j + 1, q) else some (0, p)
      else
        some (j + 1, q)

/-- Evaluation of `Except.isOk` as a plain boolean (form validity of a single field). -/
def exceptOk {ε α : Type} : Except ε α → Bool
  | .ok _ => true
  | .error _ => false

/-- The validation errors `LoanPaymentForm.clean_amount` can raise.
`exceedsBalance` carries the remaining balance the error message names
(`f'Payment amount cannot exceed remaining balance of KSh {...:.2f}'`). -/
inductive AmountError
  | required
  | belowMinimum
  | exceedsBalance (remaining : ℚ)
deriving Repr, DecidableEq

/-- Model of `LoanPaymentForm.clean_amount` (forms.py lines 156-169): reject a missing
amount, an amount below 100, and — when the form was built for an
application — an amount strictly above the application's current remaining
balance (error message naming that balance); otherwise accept. -/
def clean_amount (loan_application : Option LoanApplication)
    (amount : Option ℚ) : Except AmountError ℚ :=
  match amount with
  | none => .error .required
  | some a =>
    if a < 100 then .error .belowMinimum
    else
      match loan_application with
      | none => .ok a
      | some app =>
        if a > remaining_balance app then
          .error (.exceedsBalance (remaining_balance app))
        else
          .ok a

/-- Python `str.startswith`, modelled on the character list of the string. -/
def startswith (s p : String) : Bool :=
  p.data.isPrefixOf s.data

/-- Model of `LoanWithdrawalForm.clean_mpesa_number` (forms.py lines 103-107): reject
unless the string starts with `"2547"` and has length 12.  (No digit check
is performed on the remaining characters.) -/
def withdrawal_clean_mpesa_number (mpesa_number : String) :
    Except String String :=
  if !(startswith mpesa_number "2547") || mpesa_number.length != 12 then
    .error "Please enter a valid M-Pesa number starting with 2547 followed by 8 digits (e.g., 254712345678)"
  else
    .ok mpesa_number

/-- Model of `LoanPaymentForm.clean_mpesa_number` (forms.py lines 144-154): the number
is required for method `'mpesa'`; a non-empty number is rejected unless it
starts with `"2547"` and has length 12.  (No digit check is performed on
the remaining characters.) -/
def payment_clean_mpesa_number (payment_method : String)
    (mpesa_number : String) : Except String String :=
  if payment_method == "mpesa" && mpesa_number == "" then
    .error "M-Pesa number is required for M-Pesa payments"
  else if mpesa_number != "" &&
      (!(startswith mpesa_number "2547") || mpesa_number.length != 12) then
    .error "Please enter a valid M-Pesa number starting with 2547 followed by 8 digits (e.g., 254712345678)"
  else
    .ok mpesa_number

/-- Outcome of the `loan_withdraw` view, beyond the stored rows. -/
inductive WithdrawOutcome
  | notFound
  | alreadyWithdrawn
  | invalidForm
  | success
deriving Repr, DecidableEq

/-- Model of the `loan_withdraw` view, POST path (views.py lines 219-245).
`withdrawal` is the application's optional existing `LoanWithdrawal` row
(the `OneToOne` reverse accessor probed by `hasattr`); `mpesa` the submitted
form field; `now` the request time and `stamp` the formatted
`timezone.now().strftime('%Y%m%d%H%M%S')` timestamp (to the second).
Returns the withdrawal row state after the request and the outcome:
* not-approved applications 404 (`get_object_or_404(..., status='approved')`);
* an existing withdrawal short-circuits with an info message, no write;
* a valid form creates the row with `amount` fixed to the application's
  principal, saved once as `'processing'` and then saved as `'completed'`
  with `transaction_id = "MP" + stamp`, within the same request. -/
def loan_withdraw (now : ℤ) (stamp : String) (app : LoanApplication)
    (withdrawal : Option LoanWithdrawal) (mpesa : String) :
    Option LoanWithdrawal × WithdrawOutcome :=
  if app.status ≠ .approved then
    (withdrawal, .notFound)
  else
    match withdrawal with
    | some w => (some w, .alreadyWithdrawn)
    | none =>
      match withdrawal_clean_mpesa_number mpesa with
      | .error _ => (none, .invalidForm)
      | .ok num =>
        let w : LoanWithdrawal :=
          { mpesa_number := num
            amount := app.amount
            status := .processing
            transaction_id := ""
            processed_date := none }
        let w' : LoanWithdrawal :=
          { w with
            status := .completed
            transaction_id := "MP" ++ stamp
            processed_date := some now }
        (some w', .success)

/-- Model of the `make_payment` view, POST path (views.py lines 289-318).
If either form cleaner rejects, nothing is written and the pair
`(app, false)` is returned.  Otherwise a new payment row is appended with
the submitted amount, status driven `'processing'` → `'completed'` with
`transaction_id = "PY" + stamp`, its `due_date`/`installment_number` copied
from the earliest-due outstanding scheduled row when one exists (else
`now` / 1); and that earliest outstanding row, when it exists, is itself
marked `'completed'` with the same transaction id. -/
def make_payment (now : ℤ) (stamp : String) (app : LoanApplication)
    (method mpesa : String) (amount : Option ℚ) :
    LoanApplication × Bool :=
  if exceptOk (clean_amount (some app) amount) &&
      exceptOk (payment_clean_mpesa_number method mpesa) then
    let A := amount.getD 0
    match nextOutstanding app.payments with
    | some (i, np) =>
      let newRow : LoanPayment :=
        { amount := A
          due_date := np.due_date
          status := .completed
          installment_number := np.installment_number
          transaction_id := "PY" ++ stamp
          payment_date := some now }
      let updated : LoanPayment :=
        { np with
          status := .completed
          transaction_id := "PY" ++ stamp
          payment_date := some now }
      ({ app with payments := app.payments.set i updated ++ [newRow] }, true)
    | none =>
      let newRow : LoanPayment :=
        { amount := A
          due_date := now
          status := .completed
          installment_number := 1
          transaction_id := "PY" ++ stamp
          payment_date := some now }
      ({ app with payments := app.payments ++ [newRow] }, true)
  else
    (app, false)

/-! ### Helper lemmas (shared) -/

lemma calculate_repayment_status (app : LoanApplication) :
    (calculate_repayment app).status = app.status := by
  unfold calculate_repayment
  split <;> rfl

lemma calculate_repayment_term (app : LoanApplication) :
    (calculate_repayment app).term_months = app.term_months := by
  unfold calculate_repayment
  split <;> rfl

lemma create_payment_schedule_monthly_installment (today : ℤ)
    (app : LoanApplication) :
    (create_payment_schedule today app).monthly_installment =
      app.monthly_installment := rfl

lemma create_payment_schedule_total_repayment (today : ℤ)
    (app : LoanApplication) :
    (create_payment_schedule today app).total_repayment =
      app.total_repayment := rfl

lemma total_paid_list_cons (p : LoanPayment) (ps : List LoanPayment) :
    total_paid_list (p :: ps) =
      (if p.status == .completed then p.amount else 0) + total_paid_list ps := by
  by_cases h : p.status == PayStatus.completed <;>
    simp [total_paid_list, List.filter_cons, h]

lemma total_paid_list_append (ps qs : List LoanPayment) :
    total_paid_list (ps ++ qs) = total_paid_list ps + total_paid_list qs := by
  simp [total_paid_list, List.filter_append]

lemma total_paid_list_set (ps : List LoanPayment) (i : ℕ) (np np' : LoanPayment)
    (hget : ps.get? i = some np)
    (hold : (np.status == PayStatus.completed) = false)
    (hnew : (np'.status == PayStatus.completed) = true) :
    total_paid_list (ps.set i np') = total_paid_list ps + np'.amount := by
  induction ps generalizing i with
  | nil => simp at hget
  | cons p t ih =>
    cases i with
    | zero =>
      simp only [List.get?] at hget
      obtain rfl : p = np := by injection hget
      rw [List.set]
      rw [total_paid_list_cons, total_paid_list_cons, hold, hnew]
      simp
      ring
    | succ j =>
      simp only [List.get?] at hget
      rw [List.set]
      rw [total_paid_list_cons, total_paid_list_cons, ih j hget]
      ring

lemma remaining_balance_some (app : LoanApplication) (t : ℚ)
    (ht : app.total_repayment = some t) (h0 : t ≠ 0) :
    remaining_balance app = t - total_paid app := by
  unfold remaining_balance
  rw [ht]
  simp [truthy, h0]

lemma nextOutstanding_cons (p : LoanPayment) (ps : List LoanPayment) :
    nextOutstanding (p :: ps) =
      match nextOutstanding ps with
      | none => if isOutstanding p then some (0, p) else none
      | some (j, q) =>
        if isOutstanding p then
          if q.due_date < p.due_date then some (j + 1, q) else some (0, p)
        else
          some (j + 1, q) := rfl

lemma nextOutstanding_none (ps : List LoanPayment)
    (h : nextOutstanding ps = none) :
    ∀ r ∈ ps, isOutstanding r = false := by
  induction ps with
  | nil => simp
  | cons p t ih =>
    intro r hr
    rw [nextOutstanding_cons] at h
    rcases hn : nextOutstanding t with - | ⟨j, q⟩
    · simp only [hn] at h
      by_cases hp : isOutstanding p
      · simp [hp] at h
      · rcases List.mem_cons.mp hr with rfl | hrt
        · simpa using hp
        · exact ih hn r hrt
    · simp only [hn] at h
      by_cases hp : isOutstanding p
      · rw [if_pos hp] at h
        by_cases hlt : q.due_date < p.due_date
        · rw [if_pos hlt] at h; simp at h
        · rw [if_neg hlt] at h; simp at h
      · rw [if_neg hp] at h
        simp at h

lemma nextOutstanding_mem (ps : List LoanPayment) (i : ℕ) (np : LoanPayment)
    (h : nextOutstanding ps = some (i, np)) :
    ps.get? i = some np ∧ isOutstanding np = true := by
  induction ps generalizing i np with
  | nil => simp [nextOutstanding] at h
  | cons p t ih =>
    rw [nextOutstanding_cons] at h
    rcases hn : nextOutstanding t with - | ⟨j, q⟩
    · simp only [hn] at h
      by_cases hp : isOutstanding p
      · rw [if_pos hp] at h
        simp only [Option.some.injEq, Prod.mk.injEq] at h
        obtain ⟨rfl, rfl⟩ := h
        exact ⟨rfl, hp⟩
      · rw [if_neg hp] at h
        simp at h
    · simp only [hn] at h
      obtain ⟨hq, hqo⟩ := ih j q hn
      by_cases hp : isOutstanding p
      · rw [if_pos hp] at h
        by_cases hlt : q.due_date < p.due_date
        · rw [if_pos hlt] at h
          simp only [Option.some.injEq, Prod.mk.injEq] at h
          obtain ⟨rfl, rfl⟩ := h
          exact ⟨hq, hqo⟩
        · rw [if_neg hlt] at h
          simp only [Option.some.injEq, Prod.mk.injEq] at h
          obtain ⟨rfl, rfl⟩ := h
          exact ⟨rfl, hp⟩
      · rw [if_neg hp] at h
        simp only [Option.some.injEq, Prod.mk.injEq] at h
        obtain ⟨rfl, rfl⟩ := h
        exact ⟨hq, hqo⟩

lemma nextOutstanding_min (ps : List LoanPayment) (i : ℕ) (np : LoanPayment)
    (h : nextOutstanding ps = some (i, np)) :
    ∀ r ∈ ps, isOutstanding r = true → np.due_date ≤ r.due_date := by
  induction ps generalizing i np with
  | nil => simp
  | cons p t ih =>
    intro r hr hro
    rw [nextOutstanding_cons] at h
    rcases hn : nextOutstanding t with - | ⟨j, q⟩
    · simp only [hn] at h
      by_cases hp : isOutstanding p
      · rw [if_pos hp] at h
        simp only [Option.some.injEq, Prod.mk.injEq] at h
        obtain ⟨rfl, rfl⟩ := h
        rcases List.mem_cons.mp hr with rfl | hrt
        · exact le_refl _
        · exact absurd hro (by simp [nextOutstanding_none t hn r hrt])
      · rw [if_neg hp] at h
        simp at h
    · simp only [hn] at h
      by_cases hp : isOutstanding p
      · rw [if_pos hp] at h
        by_cases hlt : q.due_date < p.due_date
        · rw [if_pos hlt] at h
          simp only [Option.some.injEq, Prod.mk.injEq] at h
          obtain ⟨rfl, rfl⟩ := h
          rcases List.mem_cons.mp hr with rfl | hrt
          · exact le_of_lt hlt
          · exact ih j q hn r hrt hro
        · rw [if_neg hlt] at h
          simp only [Option.some.injEq, Prod.mk.injEq] at h
          obtain ⟨rfl, rfl⟩ := h
          rcases List.mem_cons.mp hr with rfl | hrt
          · exact le_refl _
          · exact le_trans (le_of_not_lt hlt) (ih j q hn r hrt hro)
      · rw [if_neg hp] at h
        simp only [Option.some.injEq, Prod.mk.injEq] at h
        obtain ⟨rfl, rfl⟩ := h
        rcases List.mem_cons.mp hr with rfl | hrt
        · exact absurd hro hp
        · exact ih j q hn r hrt hro

lemma create_payment_schedule_payments_length (today : ℤ)
    (app : LoanApplication) :
    (create_payment_schedule today app).payments.length = app.term_months := by
  simp [create_payment_schedule]

lemma create_payment_schedule_payments_pending (today : ℤ)
    (app : LoanApplication) :
    ∀ p ∈ (create_payment_schedule today app).payments,
      p.status = .pending := by
  intro p hp
  simp only [create_payment_schedule, List.mem_map] at hp
  obtain ⟨i, -, rfl⟩ := hp
  rfl

/-! ### Concrete states used by witnesses and counterexamples -/

/-- a recorded (completed) installment payment row -/
def paidRow : LoanPayment :=
  { amount := 500, due_date := 30, status := .completed,
    installment_number := 1, transaction_id := "PY20250101000000",
    payment_date := some 20 }

/-- a still-pending scheduled installment row -/
def pendingRow : LoanPayment :=
  { amount := 500, due_date := 60, status := .pending,
    installment_number := 2, transaction_id := "", payment_date := none }

/-- an approved application with figures set and one completed payment -/
def approvedApp : LoanApplication :=
  { amount := 1000, term_months := 2, interest_rate := 0,
    status := .approved, monthly_installment := some 500,
    total_repayment := some 1000, payments := [paidRow, pendingRow] }

/-- an application whose completed payments exceed its total repayment -/
def overpaidApp : LoanApplication :=
  { amount := 1000, term_months := 2, interest_rate := 0,
    status := .approved, monthly_installment := some 500,
    total_repayment := some 1000,
    payments := [paidRow,
      { paidRow with
          amount := 700, due_date := 60,
          installment_number := 2 }] }

/-- an existing withdrawal row for the witness states -/
def w0 : LoanWithdrawal :=
  { mpesa_number := "254700000000", amount := 1000, status := .completed,
    transaction_id := "MP20240101000000", processed_date := some 0 }

lemma remaining_balance_approvedApp : remaining_balance approvedApp = 500 := by
  rw [remaining_balance_some approvedApp 1000 rfl (by norm_num)]
  have h3 : List.filter (fun p => p.status == PayStatus.completed)
      approvedApp.payments = [paidRow] := rfl
  rw [total_paid, total_paid_list, h3]
  norm_num [paidRow]

/-! ### The claims -/

/-- C1: `calculate_repayment` implements the amortization algorithm: with
`monthly_rate = rate/100/12`, the amortizing-loan formula when the rate is
positive, `P/n` when it is zero, each output rounded to 2 decimal places
(the total being the unrounded installment times the term, rounded), and the
computation is deterministic (equal inputs give equal outputs) and, being a
pure function of the application record, side-effect-free. -/
theorem C1_amortization_engine (app : LoanApplication)
    (hP : 0 < app.amount) (hr : 0 ≤ app.interest_rate)
    (hn : 1 ≤ app.term_months) :
    (0 < app.interest_rate / 100 / 12 →
      (calculate_repayment app).monthly_installment =
        some (round2 (app.amount * (app.interest_rate / 100 / 12) *
          (1 + app.interest_rate / 100 / 12) ^ app.term_months /
          ((1 + app.interest_rate / 100 / 12) ^ app.term_months - 1))) ∧
      (calculate_repayment app).total_repayment =
        some (round2 (app.amount * (app.interest_rate / 100 / 12) *
          (1 + app.interest_rate / 100 / 12) ^ app.term_months /
          ((1 + app.interest_rate / 100 / 12) ^ app.term_months - 1) *
          (app.term_months : ℚ)))) ∧
    (app.interest_rate / 100 / 12 = 0 →
      (calculate_repayment app).monthly_installment =
        some (round2 (app.amount / (app.term_months : ℚ))) ∧
      (calculate_repayment app).total_repayment =
        some (round2 (app.amount / (app.term_months : ℚ) *
          (app.term_months : ℚ)))) ∧
    (∀ app' : LoanApplication, app' = app →
      calculate_repayment app' = calculate_repayment app) := by
  have hA : app.amount ≠ 0 := ne_of_gt hP
  have hT : app.term_months ≠ 0 := by omega
  refine ⟨?_, ?_, fun app' h => by rw [h]⟩
  · intro hr'
    simp only [calculate_repayment, if_pos (And.intro hA hT), if_pos hr']
    exact ⟨trivial, trivial⟩
  · intro hr'
    have : ¬ (0 < app.interest_rate / 100 / 12) := by
      rw [hr']; exact lt_irrefl 0
    simp only [calculate_repayment, if_pos (And.intro hA hT), if_neg this]
    exact ⟨trivial, trivial⟩

/-- C1 witness: a zero-rate loan of 1000 over 2 months yields an
installment of 500 and a total repayment of 1000. -/
theorem C1_amortization_engine_witness :
    (calculate_repayment (mkApplication 1000 2 0)).monthly_installment =
      some 500 ∧
    (calculate_repayment (mkApplication 1000 2 0)).total_repayment =
      some 1000 := by
  have h := C1_amortization_engine (mkApplication 1000 2 0)
    (by norm_num [mkApplication]) (by norm_num [mkApplication])
    (by norm_num [mkApplication])
  have h0 := h.2.1 (by norm_num [mkApplication])
  constructor
  · rw [h0.1]
    norm_num [mkApplication, round2, round_eq]
  · rw [h0.2]
    norm_num [mkApplication, round2, round_eq]

/-- C2: the repayment figures start out null, are computed at the first
save in status `approved`, and a save with a (truthy) installment already
set never recomputes them: a second approval save leaves both figures
unchanged. -/
theorem C2_idempotent_approval (app : LoanApplication) (today : ℤ) :
    (∀ (a : ℚ) (t : ℕ) (r : ℚ),
      (mkApplication a t r).monthly_installment = none ∧
      (mkApplication a t r).total_repayment = none) ∧
    (app.status ≠ .approved →
      (save today app).monthly_installment = app.monthly_installment ∧
      (save today app).total_repayment = app.total_repayment) ∧
    (app.status = .approved → app.monthly_installment = none →
      (save today app).monthly_installment =
        (calculate_repayment app).monthly_installment ∧
      (save today app).total_repayment =
        (calculate_repayment app).total_repayment) ∧
    (∀ v : ℚ, app.status = .approved → app.monthly_installment = some v →
      v ≠ 0 →
      (save today app).monthly_installment = some v ∧
      (save today app).total_repayment = app.total_repayment) := by
  refine ⟨fun a t r => ⟨rfl, rfl⟩, ?_, ?_, ?_⟩
  · intro hs
    have h1 : ¬ (app.status = .approved ∧ ¬ truthy app.monthly_installment) :=
      fun h => hs h.1
    simp only [save, if_neg h1, if_neg hs]
    constructor <;> trivial
  · intro hs hm
    have h1 : app.status = .approved ∧ ¬ truthy app.monthly_installment :=
      ⟨hs, by simp [hm, truthy]⟩
    have h2 : (calculate_repayment app).status = .approved := by
      rw [calculate_repayment_status]; exact hs
    simp only [save, if_pos h1, if_pos h2]
    constructor <;> trivial
  · intro v hs hm hv0
    have ht : truthy app.monthly_installment = true := by
      simp [hm, truthy, hv0]
    have h1 : ¬ (app.status = .approved ∧ ¬ truthy app.monthly_installment) :=
      fun h => h.2 (by simp [ht])
    simp only [save, if_neg h1, if_pos hs]
    exact ⟨by rw [create_payment_schedule_monthly_installment, hm], rfl⟩

/-- C2 witness: saving an already-approved application with installment 500
and total 1000 leaves both values unchanged, and saving a fresh pending
application leaves the installment null. -/
theorem C2_idempotent_approval_witness :
    (save 0 { mkApplication 1000 2 0 with
        status := .approved
        monthly_installment := some 500
        total_repayment := some 1000 }).monthly_installment = some 500 ∧
    (save 0 { mkApplication 1000 2 0 with
        status := .approved
        monthly_installment := some 500
        total_repayment := some 1000 }).total_repayment = some 1000 ∧
    (save 0 (mkApplication 1000 2 0)).monthly_installment = none := by
  have h4 := (C2_idempotent_approval { mkApplication 1000 2 0 with
      status := .approved
      monthly_installment := some 500
      total_repayment := some 1000 } 0).2.2.2 500 rfl rfl (by norm_num)
  have h2 := (C2_idempotent_approval (mkApplication 1000 2 0) 0).2.1
    (by simp [mkApplication])
  exact ⟨h4.1, h4.2, h2.1.trans rfl⟩

/-- C3 counterexample: an approved application with its installment already
set and a completed payment on file; one further save regenerates the
payment collection, destroying the completed row (total paid drops from
500 to 0), refuting the claim that no subsequent save while approved
deletes and recreates the schedule. -/
theorem C3_regeneration_counterexample :
    approvedApp.status = .approved ∧
    truthy approvedApp.monthly_installment = true ∧
    total_paid approvedApp = 500 ∧
    (save 100 approvedApp).payments ≠ approvedApp.payments ∧
    total_paid (save 100 approvedApp) = 0 := by
  refine ⟨rfl, rfl, ?_, ?_, ?_⟩
  · have h3 : List.filter (fun p => p.status == PayStatus.completed)
        approvedApp.payments = [paidRow] := rfl
    rw [total_paid, total_paid_list, h3]
    norm_num [paidRow]
  · decide
  · have h4 : List.filter (fun p => p.status == PayStatus.completed)
        (save 100 approvedApp).payments = [] := rfl
    rw [total_paid, total_paid_list, h4]
    rfl

/-- C3 amended: only the installment computation is guarded by the
installment-already-set check; `create_payment_schedule` runs on *every*
save while the status is `approved`, replacing the whole payment collection
with `term_months` fresh pending rows (so completed rows do not survive a
later save). -/
theorem C3_schedule_regenerated_every_save (app : LoanApplication)
    (today : ℤ) (h : app.status = .approved) :
    (save today app).payments.length = app.term_months ∧
    ∀ p ∈ (save today app).payments, p.status = .pending := by
  by_cases hc : app.status = .approved ∧ ¬ truthy app.monthly_installment
  · have h2 : (calculate_repayment app).status = .approved := by
      rw [calculate_repayment_status]; exact h
    simp only [save, if_pos hc, if_pos h2]
    exact ⟨by rw [create_payment_schedule_payments_length,
        calculate_repayment_term],
      create_payment_schedule_payments_pending _ _⟩
  · simp only [save, if_neg hc, if_pos h]
    exact ⟨create_payment_schedule_payments_length _ _,
      create_payment_schedule_payments_pending _ _⟩

/-- C3 amended witness: saving the approved concrete application leaves a
2-row, all-pending schedule. -/
theorem C3_schedule_regenerated_every_save_witness :
    (save 100 approvedApp).payments.length = 2 ∧
    ∀ p ∈ (save 100 approvedApp).payments, p.status = .pending := by
  have h := C3_schedule_regenerated_every_save approvedApp 100 rfl
  exact ⟨h.1.trans rfl, h.2⟩

/-- C4: `create_payment_schedule` for an application with installment `m`
produces exactly `term_months` rows; row `i` (0-based) has amount `m`,
status `pending`, installment number `i+1` and due date `today + 30*(i+1)`;
the first row is due 30 days out; consecutive due dates are exactly 30
days apart and due dates are strictly increasing. -/
theorem C4_schedule_generation (app : LoanApplication) (today : ℤ) (m : ℚ)
    (hm : app.monthly_installment = some m) :
    ((create_payment_schedule today app).payments.length = app.term_months) ∧
    (∀ i, i < app.term_months →
      (create_payment_schedule today app).payments.get? i =
        some { amount := m
               due_date := today + 30 * ((i : ℤ) + 1)
               status := .pending
               installment_number := i + 1
               transaction_id := ""
               payment_date := none }) ∧
    (1 ≤ app.term_months →
      ∃ p0, (create_payment_schedule today app).payments.get? 0 = some p0 ∧
        p0.due_date = today + 30) ∧
    (∀ i pi pj,
      (create_payment_schedule today app).payments.get? i = some pi →
      (create_payment_schedule today app).payments.get? (i + 1) = some pj →
      pj.due_date = pi.due_date + 30) ∧
    (∀ i j pi pj,
      (create_payment_schedule today app).payments.get? i = some pi →
      (create_payment_schedule today app).payments.get? j = some pj →
      i < j → pi.due_date < pj.due_date) := by
  have hps : (create_payment_schedule today app).payments =
      (List.range app.term_months).map (fun (i : ℕ) =>
        { amount := m
          due_date := today + 30 * ((i : ℤ) + 1)
          status := .pending
          installment_number := i + 1
          transaction_id := ""
          payment_date := none }) := by
    simp [create_payment_schedule, hm]
  have hlen : (create_payment_schedule today app).payments.length =
      app.term_months := by
    rw [hps]; simp
  have hget : ∀ i, i < app.term_months →
      (create_payment_schedule today app).payments.get? i =
        some { amount := m
               due_date := today + 30 * ((i : ℤ) + 1)
               status := .pending
               installment_number := i + 1
               transaction_id := ""
               payment_date := none } := by
    intro i hi
    rw [hps, List.get?_map, List.get?_range hi]
    rfl
  have hbound : ∀ i pi,
      (create_payment_schedule today app).payments.get? i = some pi →
      i < app.term_months ∧
      pi.due_date = today + 30 * ((i : ℤ) + 1) := by
    intro i pi hpi
    obtain ⟨hi, -⟩ := List.get?_eq_some.mp hpi
    rw [hlen] at hi
    refine ⟨hi, ?_⟩
    have := (hget i hi).symm.trans hpi
    have hpi' := Option.some.inj this
    rw [← hpi']
  refine ⟨hlen, hget, ?_, ?_, ?_⟩
  · intro h1
    refine ⟨_, hget 0 h1, ?_⟩
    push_cast
    ring
  · intro i pi pj hpi hpj
    obtain ⟨hi, hdi⟩ := hbound i pi hpi
    obtain ⟨hj, hdj⟩ := hbound (i + 1) pj hpj
    rw [hdi, hdj]
    push_cast
    ring
  · intro i j pi pj hpi hpj hij
    obtain ⟨hi, hdi⟩ := hbound i pi hpi
    obtain ⟨hj, hdj⟩ := hbound j pj hpj
    rw [hdi, hdj]
    have : (i : ℤ) < (j : ℤ) := by exact_mod_cast hij
    linarith

/-- C4 witness: the concrete approved application (installment 500, term 2)
gets a 2-row schedule whose second row is due 60 days out with amount 500
and installment number 2. -/
theorem C4_schedule_generation_witness :
    (create_payment_schedule 0 approvedApp).payments.length = 2 ∧
    (create_payment_schedule 0 approvedApp).payments.get? 1 =
      some { amount := 500, due_date := 60, status := .pending,
             installment_number := 2, transaction_id := "",
             payment_date := none } := by
  have h := C4_schedule_generation approvedApp 0 500 rfl
  refine ⟨h.1.trans rfl, ?_⟩
  have h1 := h.2.1 1 (by norm_num [approvedApp])
  rw [h1]
  norm_num

/-- C5 counterexample: at P = 10000, rate 12%, n = 12 the code rounds the
*unrounded* installment times 12, giving total_repayment 10661.85, not the
claimed 10661.88 ( = 888.49 × 12). -/
theorem C5_total_repayment_counterexample :
    (calculate_repayment (mkApplication 10000 12 12)).monthly_installment =
      some (88849 / 100) ∧
    (calculate_repayment (mkApplication 10000 12 12)).total_repayment =
      some (1066185 / 100) ∧
    (1066185 / 100 : ℚ) ≠ 1066188 / 100 := by
  refine ⟨?_, ?_, by norm_num⟩ <;>
    norm_num [calculate_repayment, mkApplication, round2, round_eq]

/-- C5 amended: P = 10000, rate 12%, n = 12 gives monthly_rate 0.01,
monthly_installment 888.49, and total_repayment 10661.85 (the unrounded
installment times 12, rounded to 2 decimal places). -/
theorem C5_example_figures :
    (mkApplication 10000 12 12).interest_rate / 100 / 12 = 1 / 100 ∧
    (calculate_repayment (mkApplication 10000 12 12)).monthly_installment =
      some (88849 / 100) ∧
    (calculate_repayment (mkApplication 10000 12 12)).total_repayment =
      some (1066185 / 100) := by
  refine ⟨by norm_num [mkApplication], ?_, ?_⟩ <;>
    norm_num [calculate_repayment, mkApplication, round2, round_eq]

/-- C6: when total_repayment is set (truthy), remaining_balance is exactly
total_repayment minus the sum of completed payment amounts, with no
clamping: it goes negative as soon as completed payments exceed the
total. -/
theorem C6_remaining_balance_no_clamp (app : LoanApplication) (t : ℚ)
    (ht : app.total_repayment = some t) (h0 : t ≠ 0) :
    remaining_balance app =
      t - ((app.payments.filter fun p =>
        p.status == PayStatus.completed).map (·.amount)).sum ∧
    (t < total_paid app → remaining_balance app < 0) := by
  have h := remaining_balance_some app t ht h0
  constructor
  · rw [h]; rfl
  · intro hlt; rw [h]; linarith

/-- C6 witness: an application with total 1000 and completed payments
summing to 1200 has remaining balance −200 < 0. -/
theorem C6_remaining_balance_no_clamp_witness :
    remaining_balance overpaidApp = -200 ∧
    remaining_balance overpaidApp < 0 := by
  have h := C6_remaining_balance_no_clamp overpaidApp 1000 rfl (by norm_num)
  have h3 : List.filter (fun p => p.status == PayStatus.completed)
      overpaidApp.payments = overpaidApp.payments := rfl
  have htp : total_paid overpaidApp = 1200 := by
    rw [total_paid, total_paid_list, h3]
    norm_num [overpaidApp, paidRow]
  constructor
  · rw [h.1,
      show ((overpaidApp.payments.filter fun p =>
          p.status == PayStatus.completed).map (·.amount)).sum =
        total_paid overpaidApp from rfl, htp]
    norm_num
  · exact h.2 (by rw [htp]; norm_num)

/-- C7: the payment form accepts an amount iff 100 ≤ amount ≤ remaining
balance (both inclusive); below 100 it raises the minimum-amount error,
above the balance it raises the error carrying the remaining balance, and
a rejected submission leaves the application (and its payment rows)
unchanged. -/
theorem C7_payment_amount_bounds (app : LoanApplication) (a : ℚ) :
    (clean_amount (some app) (some a) = .ok a ↔
      100 ≤ a ∧ a ≤ remaining_balance app) ∧
    (a < 100 → clean_amount (some app) (some a) = .error .belowMinimum) ∧
    (100 ≤ a → remaining_balance app < a →
      clean_amount (some app) (some a) =
        .error (.exceedsBalance (remaining_balance app))) ∧
    (¬ (100 ≤ a ∧ a ≤ remaining_balance app) →
      ∀ (now : ℤ) (stamp : String) (method mpesa : String),
        make_payment now stamp app method mpesa (some a) = (app, false)) := by
  have hspec : clean_amount (some app) (some a) =
      if a < 100 then .error .belowMinimum
      else if a > remaining_balance app then
        .error (.exceedsBalance (remaining_balance app))
      else .ok a := rfl
  have hfalse : ¬ (100 ≤ a ∧ a ≤ remaining_balance app) →
      exceptOk (clean_amount (some app) (some a)) = false := by
    intro hnot
    rw [hspec]
    by_cases h1 : a < 100
    · rw [if_pos h1]; rfl
    · have h2 : a > remaining_balance app := by
        rcases not_and_or.mp hnot with h | h
        · exact absurd (le_of_not_lt h1) h
        · exact lt_of_not_le h
      rw [if_neg h1, if_pos h2]; rfl
  refine ⟨?_, ?_, ?_, ?_⟩
  · rw [hspec]
    constructor
    · intro h
      by_cases h1 : a < 100
      · rw [if_pos h1] at h; exact absurd h (by simp)
      · rw [if_neg h1] at h
        by_cases h2 : a > remaining_balance app
        · rw [if_pos h2] at h; exact absurd h (by simp)
        · exact ⟨le_of_not_lt h1, le_of_not_lt h2⟩
    · rintro ⟨h1, h2⟩
      rw [if_neg (not_lt.mpr h1), if_neg (not_lt.mpr h2)]
  · intro h1
    rw [hspec, if_pos h1]
  · intro h1 h2
    rw [hspec, if_neg (not_lt.mpr h1), if_pos h2]
  · intro hnot now stamp method mpesa
    have hf := hfalse hnot
    simp [make_payment, hf]

/-- C7 witness: on the concrete approved application (remaining balance
500), amount 100 is accepted, 50 is rejected as below minimum, 600 is
rejected with the error naming the remaining balance, and the rejected
50-payment leaves the state unchanged. -/
theorem C7_payment_amount_bounds_witness :
    clean_amount (some approvedApp) (some 100) = .ok 100 ∧
    clean_amount (some approvedApp) (some 50) = .error .belowMinimum ∧
    clean_amount (some approvedApp) (some 600) =
      .error (.exceedsBalance (remaining_balance approvedApp)) ∧
    make_payment 0 "20250101000000" approvedApp "cash" "" (some 50) =
      (approvedApp, false) := by
  have h100 := C7_payment_amount_bounds approvedApp 100
  have h50 := C7_payment_amount_bounds approvedApp 50
  have h600 := C7_payment_amount_bounds approvedApp 600
  refine ⟨h100.1.mpr ⟨by norm_num,
      by rw [remaining_balance_approvedApp]; norm_num⟩,
    h50.2.1 (by norm_num),
    h600.2.2.1 (by norm_num)
      (by rw [remaining_balance_approvedApp]; norm_num),
    h50.2.2.2 (fun hc => absurd hc.1 (by norm_num))
      0 "20250101000000" "cash" ""⟩

/-- C8: withdrawal 404s unless the application is approved; an existing
withdrawal row short-circuits with an informational outcome and no new
record; otherwise a valid form creates the single withdrawal whose amount
is the application's principal (not user input), reaching status
`completed` with transaction id `"MP" ++ timestamp` within the same
operation. -/
theorem C8_single_withdrawal_fixed_amount (now : ℤ) (stamp : String)
    (app : LoanApplication) (withdrawal : Option LoanWithdrawal)
    (mpesa : String) :
    (app.status ≠ .approved →
      loan_withdraw now stamp app withdrawal mpesa =
        (withdrawal, .notFound)) ∧
    (∀ w, app.status = .approved → withdrawal = some w →
      loan_withdraw now stamp app withdrawal mpesa =
        (some w, .alreadyWithdrawn)) ∧
    (app.status = .approved → withdrawal = none →
      exceptOk (withdrawal_clean_mpesa_number mpesa) = false →
      loan_withdraw now stamp app withdrawal mpesa =
        (none, .invalidForm)) ∧
    (app.status = .approved → withdrawal = none →
      withdrawal_clean_mpesa_number mpesa = .ok mpesa →
      loan_withdraw now stamp app withdrawal mpesa =
        (some { mpesa_number := mpesa
                amount := app.amount
                status := .completed
                transaction_id := "MP" ++ stamp
                processed_date := some now }, .success)) := by
  refine ⟨?_, ?_, ?_, ?_⟩
  · intro h
    simp only [loan_withdraw, if_pos h]
  · intro w hs hw
    subst hw
    simp [loan_withdraw, hs]
  · intro hs hw hko
    subst hw
    rcases hcl : withdrawal_clean_mpesa_number mpesa with e | v
    · simp [loan_withdraw, hs, hcl]
    · rw [hcl] at hko
      simp [exceptOk] at hko
  · intro hs hw hok
    subst hw
    simp [loan_withdraw, hs, hok]

/-- C8 witness: on the approved application, a second withdrawal attempt is
rejected leaving the existing row, and a first attempt with a valid number
creates the completed withdrawal for the principal 1000 with the
"MP"-prefixed transaction id. -/
theorem C8_single_withdrawal_fixed_amount_witness :
    loan_withdraw 0 "20250101000000" approvedApp (some w0) "254712345678" =
      (some w0, .alreadyWithdrawn) ∧
    loan_withdraw 0 "20250101000000" approvedApp none "254712345678" =
      (some { mpesa_number := "254712345678", amount := 1000,
              status := .completed,
              transaction_id := "MP20250101000000",
              processed_date := some 0 }, .success) := by
  have h := C8_single_withdrawal_fixed_amount 0 "20250101000000" approvedApp
    (some w0) "254712345678"
  have h' := C8_single_withdrawal_fixed_amount 0 "20250101000000" approvedApp
    none "254712345678"
  refine ⟨h.2.1 w0 rfl rfl, ?_⟩
  have hs := h'.2.2.2 rfl rfl (by rfl)
  rw [hs]
  rfl

/-- C9 counterexample: the 12-character string `"2547abcd0000"` has the
right prefix and length but non-digit characters in its last 8 positions,
yet both the withdrawal form and the payment form accept it — refuting the
claim that the forms accept exactly prefix-plus-8-digits strings. -/
theorem C9_nondigit_number_accepted :
    ("2547abcd0000" : String).length = 12 ∧
    startswith "2547abcd0000" "2547" = true ∧
    (("2547abcd0000".data.drop 4).all Char.isDigit = false) ∧
    withdrawal_clean_mpesa_number "2547abcd0000" = .ok "2547abcd0000" ∧
    payment_clean_mpesa_number "mpesa" "2547abcd0000" =
      .ok "2547abcd0000" := by
  refine ⟨by decide, by decide, by decide, by rfl, by rfl⟩

/-- C9 amended: both forms accept a (non-empty, for the payment form)
mobile-money number iff it starts with `"2547"` and has length 12 — prefix
and length only, with no digit check on the remaining 8 characters; any
string failing prefix or length is rejected by both forms. -/
theorem C9_mpesa_number_validation (s : String) :
    (exceptOk (withdrawal_clean_mpesa_number s) = true ↔
      startswith s "2547" = true ∧ s.length = 12) ∧
    (s ≠ "" →
      (exceptOk (payment_clean_mpesa_number "mpesa" s) = true ↔
        startswith s "2547" = true ∧ s.length = 12)) ∧
    (∀ method, s ≠ "" →
      ¬ (startswith s "2547" = true ∧ s.length = 12) →
      exceptOk (payment_clean_mpesa_number method s) = false) := by
  refine ⟨?_, ?_, ?_⟩
  · cases hb : startswith s "2547" <;> by_cases hl : s.length = 12 <;>
      simp [withdrawal_clean_mpesa_number, exceptOk, hb, hl]
  · intro hs
    cases hb : startswith s "2547" <;> by_cases hl : s.length = 12 <;>
      simp [payment_clean_mpesa_number, exceptOk, hb, hl, hs]
  · intro method hs hnot
    rcases (not_and_or.mp hnot) with h | h
    · have hb : startswith s "2547" = false := by
        cases hx : startswith s "2547"
        · rfl
        · exact absurd hx h
      simp [payment_clean_mpesa_number, exceptOk, hb, hs]
    · simp [payment_clean_mpesa_number, exceptOk, hs, h]

/-- C9 amended witness: the number `"254712345678"` is accepted by both forms, and the
short `"0712345678"` is rejected by the payment form. -/
theorem C9_mpesa_number_validation_witness :
    exceptOk (withdrawal_clean_mpesa_number "254712345678") = true ∧
    exceptOk (payment_clean_mpesa_number "mpesa" "254712345678") = true ∧
    exceptOk (payment_clean_mpesa_number "bank" "0712345678") = false := by
  refine ⟨(C9_mpesa_number_validation "254712345678").1.mpr
      ⟨by decide, by decide⟩,
    ((C9_mpesa_number_validation "254712345678").2.1 (by decide)).mpr
      ⟨by decide, by decide⟩,
    (C9_mpesa_number_validation "0712345678").2.2 "bank" (by decide)
      (by decide)⟩

lemma isOutstanding_not_completed (p : LoanPayment)
    (h : isOutstanding p = true) :
    (p.status == PayStatus.completed) = false := by
  rcases p with ⟨a, d, st, n, tid, pd⟩
  cases st <;> simp [isOutstanding] at h ⊢

lemma total_paid_approvedApp : total_paid approvedApp = 500 := by
  have h3 : List.filter (fun p => p.status == PayStatus.completed)
      approvedApp.payments = [paidRow] := rfl
  rw [total_paid, total_paid_list, h3]
  norm_num [paidRow]

/-- C10: an accepted payment of amount `A`, made while an outstanding
(pending/overdue) scheduled installment exists, both appends a new
completed row of amount `A` and marks the earliest-due outstanding
installment (amount `S`) completed with the same transaction id, so
total_paid rises by `A + S` and remaining_balance falls by `A + S` — the
one real payment is counted twice in the ledger. -/
theorem C10_payment_counted_twice (now : ℤ) (stamp : String)
    (app : LoanApplication) (method mpesa : String) (A : ℚ)
    (i : ℕ) (np : LoanPayment)
    (hnext : nextOutstanding app.payments = some (i, np))
    (hamt : clean_amount (some app) (some A) = .ok A)
    (hmp : payment_clean_mpesa_number method mpesa = .ok mpesa) :
    (make_payment now stamp app method mpesa (some A)).2 = true ∧
    isOutstanding np = true ∧
    (∀ r ∈ app.payments, isOutstanding r = true →
      np.due_date ≤ r.due_date) ∧
    (make_payment now stamp app method mpesa (some A)).1.payments =
      app.payments.set i
        { np with
            status := .completed
            transaction_id := "PY" ++ stamp
            payment_date := some now } ++
      [{ amount := A
         due_date := np.due_date
         status := .completed
         installment_number := np.installment_number
         transaction_id := "PY" ++ stamp
         payment_date := some now }] ∧
    total_paid (make_payment now stamp app method mpesa (some A)).1 =
      total_paid app + A + np.amount ∧
    (∀ t : ℚ, app.total_repayment = some t → t ≠ 0 →
      remaining_balance (make_payment now stamp app method mpesa (some A)).1 =
        remaining_balance app - (A + np.amount)) := by
  obtain ⟨hget, hout⟩ := nextOutstanding_mem _ _ _ hnext
  have hmin := nextOutstanding_min _ _ _ hnext
  have hcond : (exceptOk (clean_amount (some app) (some A)) &&
      exceptOk (payment_clean_mpesa_number method mpesa)) = true := by
    rw [hamt, hmp]; rfl
  have hmk : make_payment now stamp app method mpesa (some A) =
      ({ app with
          payments := app.payments.set i
              { np with
                  status := .completed
                  transaction_id := "PY" ++ stamp
                  payment_date := some now } ++
            [{ amount := A
               due_date := np.due_date
               status := .completed
               installment_number := np.installment_number
               transaction_id := "PY" ++ stamp
               payment_date := some now }] }, true) := by
    simp [make_payment, hcond, hnext]
  have htotal : total_paid (make_payment now stamp app method mpesa
      (some A)).1 = total_paid app + A + np.amount := by
    rw [hmk]
    show total_paid_list (_ ++ _) = _
    rw [total_paid_list_append,
      total_paid_list_set app.payments i np
        { np with
            status := .completed
            transaction_id := "PY" ++ stamp
            payment_date := some now }
        hget (isOutstanding_not_completed np hout) rfl,
      total_paid_list_cons]
    show total_paid_list app.payments + np.amount +
      (A + total_paid_list []) = _
    rw [show total_paid_list [] = 0 from rfl]
    show total_paid app + np.amount + (A + 0) = _
    ring
  refine ⟨by rw [hmk], hout, hmin, by rw [hmk], htotal, ?_⟩
  intro t ht h0
  have h2 : (make_payment now stamp app method mpesa
      (some A)).1.total_repayment = some t := by
    rw [hmk]; exact ht
  rw [remaining_balance_some _ t h2 h0, remaining_balance_some app t ht h0,
    htotal]
  ring

/-- C10 witness: paying 100 on the concrete approved application (pending
installment of 500, remaining balance 500) drives total_paid from 500 to
1100 and remaining_balance from 500 to −100: the ledger moves by 600 for a
100 payment. -/
theorem C10_payment_counted_twice_witness :
    (make_payment 0 "20250101000000" approvedApp "mpesa" "254712345678"
      (some 100)).2 = true ∧
    total_paid (make_payment 0 "20250101000000" approvedApp "mpesa"
      "254712345678" (some 100)).1 = 1100 ∧
    remaining_balance (make_payment 0 "20250101000000" approvedApp "mpesa"
      "254712345678" (some 100)).1 = -100 := by
  have hamt : clean_amount (some approvedApp) (some 100) = .ok 100 := by
    have hsp : clean_amount (some approvedApp) (some 100) =
        if (100 : ℚ) < 100 then .error .belowMinimum
        else if (100 : ℚ) > remaining_balance approvedApp then
          .error (.exceedsBalance (remaining_balance approvedApp))
        else .ok 100 := rfl
    rw [hsp, if_neg (by norm_num),
      if_neg (by rw [remaining_balance_approvedApp]; norm_num)]
  have h := C10_payment_counted_twice 0 "20250101000000" approvedApp "mpesa"
    "254712345678" 100 1 pendingRow (by rfl) hamt (by rfl)
  refine ⟨h.1, ?_, ?_⟩
  · rw [h.2.2.2.2.1, total_paid_approvedApp]
    norm_num [pendingRow]
  · rw [h.2.2.2.2.2 1000 rfl (by norm_num), remaining_balance_approvedApp]
    norm_num [pendingRow]

end VJLoans
